import Mathlib

/-!
Shallow embedding of the `bespoke` review scheduler
(`src/bespoke/urgency.py` and `src/bespoke/deck.py`).

Modelling conventions:
- Python floats (timestamps, urgencies, scores) are modelled as `ℚ`.
- `np.exp` is an opaque numeric routine; functions that call it take an
  explicit parameter `expFn : ℚ → ℚ`.  No claim below depends on the value
  of the exponential, so theorems quantify over `expFn`.
- Python `dict` (insertion-ordered, unique keys) is modelled as an
  association list with first-match lookup and replace-in-place update.
- Code that can raise (`ValueError`, `KeyError`, `assert`, enum parsing)
  returns `Except String _`.
-/

namespace Bespoke

/-- `Mode` StrEnum from `urgency.py`: LISTEN, SPEAK, READ, WRITE. -/
inductive Mode where
  | listen
  | speak
  | read
  | write
deriving DecidableEq, Repr

/-- The string value of a `Mode` member (`str(mode)` / its StrEnum value). -/
def Mode.toStr : Mode → String
  | .listen => "listen"
  | .speak => "speak"
  | .read => "read"
  | .write => "write"

/-- `Mode(s)` construction from a string; `none` models a `ValueError`. -/
def Mode.ofStr (s : String) : Option Mode :=
  if s = "listen" then some .listen
  else if s = "speak" then some .speak
  else if s = "read" then some .read
  else if s = "write" then some .write
  else none

/-- `list(Mode)` in declaration order. -/
def allModes : List Mode := [.listen, .speak, .read, .write]

/-- `Difficulty` StrEnum from `languages.py`. -/
inductive Difficulty where
  | A1
  | A2
  | B1
  | B2
  | C1
  | C2
deriving DecidableEq, Repr

/-- The string value of a `Difficulty` member. -/
def Difficulty.toStr : Difficulty → String
  | .A1 => "A1"
  | .A2 => "A2"
  | .B1 => "B1"
  | .B2 => "B2"
  | .C1 => "C1"
  | .C2 => "C2"

/-- `Difficulty(s)` construction from a string; `none` models a `ValueError`. -/
def Difficulty.ofStr (s : String) : Option Difficulty :=
  if s = "A1" then some .A1
  else if s = "A2" then some .A2
  else if s = "B1" then some .B1
  else if s = "B2" then some .B2
  else if s = "C1" then some .C1
  else if s = "C2" then some .C2
  else none

/-- `Rating` record: `{mode, time, score}` (frozen pydantic model). -/
structure Rating where
  mode : Mode
  time : ℚ
  score : Int
deriving DecidableEq, Repr

-- Constants from urgency.py
def BLOCK_INTERVAL : ℚ := 60 * 60 * 20
def INTERVAL_DECAY : ℚ := 1/2
def INTERVAL_FACTOR : ℚ := 4/5
def ALL_GREEN_MINIMUM : ℚ := 14 * 24 * 60 * 60

/-- Loop state of `_extract_good_interval`. -/
structure ExtractState where
  first_good : Option ℚ
  last_good : Option ℚ
  good_block : ℚ
  good_interval_length : ℚ
  has_red : Bool
  has_green : Bool
deriving Repr

/-- One iteration of the `for rating in history` loop of
`_extract_good_interval`. -/
def extractStep (mode : Mode) (s : ExtractState) (r : Rating) : ExtractState :=
  let s1 :=
    if r.mode = mode then
      if r.score = 1 ∨ r.score = 2 then
        { s with has_red := true,
                 good_interval_length := s.good_interval_length * INTERVAL_DECAY,
                 first_good := none,
                 last_good := none }
      else if r.score = 3 ∧ s.good_block < r.time then
        match s.first_good with
        | none =>
            { s with has_green := true, last_good := some r.time,
                     first_good := some r.time }
        | some fg =>
            { s with has_green := true, last_good := some r.time,
                     good_interval_length :=
                       max s.good_interval_length (r.time - fg) }
      else s
    else s
  { s1 with good_block := r.time + BLOCK_INTERVAL }

/-- Initial loop state of `_extract_good_interval`
(`good_block = -1e5`, `good_interval_length = 1.0`). -/
def extractInit : ExtractState :=
  { first_good := none, last_good := none, good_block := -100000,
    good_interval_length := 1, has_red := false, has_green := false }

/-- `_extract_good_interval(history, mode)` from `urgency.py`. -/
def extractGoodInterval (history : List Rating) (mode : Mode) :
    Option ℚ × ℚ :=
  let s := history.foldl (extractStep mode) extractInit
  let len :=
    if s.has_green ∧ ¬s.has_red then
      max s.good_interval_length ALL_GREEN_MINIMUM
    else s.good_interval_length
  (s.last_good, len)

/-- `next(r for r in reversed(history) if r.mode == mode and r.score != 0)`;
`none` models the (unreachable at the call site) `StopIteration`. -/
def lastNonZero (history : List Rating) (mode : Mode) : Option Rating :=
  history.reverse.find? (fun r => r.mode = mode ∧ r.score ≠ 0)

/-- A placeholder rating used only in provably dead branches. -/
def dummyRating : Rating := { mode := .listen, time := 0, score := 0 }

/-- `compute_urgency(history, mode, current_time)` from `urgency.py`.
`expFn` stands for `np.exp`. -/
def computeUrgency (expFn : ℚ → ℚ) (history : List Rating) (mode : Mode)
    (current_time : ℚ) : ℚ :=
  -- Default value for new units
  if history.all (fun r => r.mode ≠ mode ∨ r.score = 0) then 0
  else
    -- High priority when last rated feedback was failure
    match lastNonZero history mode with
    | none => 0  -- unreachable: the `all` check above failed
    | some last_non_zero =>
      if last_non_zero.score = 1 ∨ last_non_zero.score = 2 then 1
      -- Low priority if card is in block
      else if current_time < (history.getLastD dummyRating).time + BLOCK_INTERVAL
      then -1
      else
        match extractGoodInterval history mode with
        | (none, _) => 1
        | (some last_good, good_interval_length) =>
          -- sigmoid scaled with the forgetting interval, centered at target day
          let target_interval := good_interval_length * INTERVAL_FACTOR
          let target := last_good + target_interval
          let deviation := (current_time - target) / target_interval
          1 / (1 + expFn (-deviation)) - 1/2

/-- Loop state of the `for rating in history` loop of `needs_introduction`.
`greens` and `first_score` model `defaultdict(int)` as total functions with
default `0`; `seen` tracks the key set of `first_score` (every rating's mode
is read via `first_score[rating.mode]`, inserting the key) in insertion
order, which is what `first_score.values()` iterates over. -/
structure IntroState where
  greens : Mode → Nat
  first_score : Mode → Int
  seen : List Mode
  last_time : ℚ

def MIN_GREENS : Nat := 2

/-- One iteration of the history loop of `needs_introduction`; the
`case _: assert False` branch raises. -/
def introStep (s : IntroState) (r : Rating) : Except String IntroState :=
  let greens :=
    if r.score = 3 then
      fun m => if m = r.mode then s.greens m + 1 else s.greens m
    else s.greens
  let is_blocked := r.time < s.last_time + BLOCK_INTERVAL
  let last_time := r.time
  let seen := if r.mode ∈ s.seen then s.seen else s.seen ++ [r.mode]
  let s' : IntroState :=
    { greens := greens, first_score := s.first_score, seen := seen,
      last_time := last_time }
  if s.first_score r.mode > 0 then
    .ok s'
  else if r.score = 0 then
    .ok s'
  else if r.score = 1 ∨ r.score = 2 then
    .ok { s' with first_score :=
            fun m => if m = r.mode then r.score else s.first_score m }
  else if r.score = 3 then
    if ¬is_blocked then
      .ok { s' with first_score :=
              fun m => if m = r.mode then r.score else s.first_score m }
    else .ok s'
  else .error "Unknown score"

/-- The loop state after scanning a (nonempty) history in
`needs_introduction` (`last_time` starts at `history[0].time - 2.0 *
BLOCK_INTERVAL`). -/
def introStateOf (history : List Rating) : Except String IntroState :=
  match history with
  | [] => .error "empty history"
  | h0 :: _ =>
      history.foldlM introStep
        { greens := fun _ => 0, first_score := fun _ => 0, seen := [],
          last_time := h0.time - 2 * BLOCK_INTERVAL }

/-- `needs_introduction(history, modes)` from `urgency.py`. -/
def needsIntroduction (history : List Rating) (modes : List Mode) :
    Except String (Option Mode) :=
  match modes with
  | [] => .ok none
  | m0 :: _ =>
    match history with
    | [] => .ok (some m0)
    | _ :: _ => do
      let s ← introStateOf history
      -- Perfect start detection
      if (s.seen.any fun m => s.first_score m = 3) &&
          (s.seen.all fun m => s.first_score m = 0 ∨ s.first_score m = 3) then
        pure none
      else
        pure (modes.find? fun m =>
          s.greens m < MIN_GREENS ∧ s.first_score m ≠ 3)

/-! Deck (`deck.py`). Python `dict` is modelled as an association list in
insertion order with unique keys: lookup is first match, update replaces in
place or appends a new key at the end. -/

/-- `d.get(k)` on a Python dict. -/
def dictGet {α : Type} (d : List (String × α)) (k : String) : Option α :=
  match d.find? (fun p => p.1 = k) with
  | none => none
  | some p => some p.2

/-- `d[k] = v` on a Python dict. -/
def dictSet {α : Type} (d : List (String × α)) (k : String) (v : α) :
    List (String × α) :=
  match d with
  | [] => [(k, v)]
  | (k', v') :: rest =>
      if k' = k then (k, v) :: rest else (k', v') :: dictSet rest k v

-- Constants from deck.py
def MINIMUM_TOUCH_RATIO : ℚ := 1/2
def TOUCH_MARGIN : ℚ := 10
def REPORT_PENALTY : ℚ := 1000000
def CARD_USAGE_FACTOR : ℚ := 100
def CARD_USAGE_DECAY : ℚ := 1/100
def NONTARGET_PENALTY : ℚ := 20000
def UNTOUCHED_PENALTY : ℚ := 10000
def INTRODUCTION_BONUS : ℚ := 1
def URGENCY_BONUS : ℚ := 2
def DIFFICULTY_MATCH_BONUS : ℚ := 1/10
def DIFFICULTY_PENALTY : ℚ := 1/10

/-- `_is_untouched(history)` from `deck.py`. -/
def isUntouched (history : List Rating) : Bool :=
  history.all (fun rating => rating.score = 0)

/-- `UrgencyState` helper model from `deck.py`. -/
structure UrgencyState where
  is_touched : Bool
  needs_intro : Bool  -- field `needs_introduction` of the Python model
  is_target : Bool
  urgency : ℚ
  mode : Mode
deriving DecidableEq, Repr

/-- `CardUsage` record: `{time, is_reported}`. -/
structure CardUsage where
  time : ℚ
  is_reported : Bool
deriving DecidableEq, Repr

/-- The scheduler-relevant part of a `Card`: a stable id and the tagged
units.  The remaining fields (sentence, audio filenames, notes, ...) never
influence scheduling. -/
structure Card where
  id : String
  units : List String
deriving DecidableEq, Repr

/-- Deck state.  `vocab` is `self._full_vocabulary`, `difficultyMap` is
`self._difficulty_map` (as a partial function), and `cardStore` is the
external card index capability `unit ↦ cards(unit)` (with
`size(unit) = (cardStore unit).length`). -/
structure Deck where
  target_language : String
  native_language : String
  ratings : List (String × List Rating)
  card_id_uses : List (String × List CardUsage)
  difficulty : Difficulty
  modes : List Mode
  vocab : List String
  difficultyMap : String → Option Difficulty
  cardStore : String → List Card

/-- Python tuple comparison `(urgency, mode) < (urgency, mode)`; `Mode` is
a StrEnum so members compare by their string values. -/
def pairLt (a b : ℚ × Mode) : Prop :=
  a.1 < b.1 ∨ (a.1 = b.1 ∧ a.2.toStr < b.2.toStr)

instance (a b : ℚ × Mode) : Decidable (pairLt a b) := by
  unfold pairLt; infer_instance

/-- `max((compute_urgency(history, m, current_time), m) for m in modes)`:
Python `max` keeps the current element unless a later one is strictly
greater. -/
def maxUrgencyMode (expFn : ℚ → ℚ) (history : List Rating)
    (current_time : ℚ) (m0 : Mode) (rest : List Mode) : ℚ × Mode :=
  rest.foldl
    (fun acc m =>
      let p := (computeUrgency expFn history m current_time, m)
      if pairLt acc p then p else acc)
    (computeUrgency expFn history m0 current_time, m0)

/-- The update of `has_reached_threshold` at vocabulary position `i` with
`touched` touched units so far:
`if (touched + TOUCH_MARGIN) / (i + TOUCH_MARGIN) < MINIMUM_TOUCH_RATIO:
has_reached_threshold = True`. -/
def flagStep (i touched : Nat) (flag : Bool) : Bool :=
  if ((touched : ℚ) + TOUCH_MARGIN) / ((i : ℚ) + TOUCH_MARGIN) <
      MINIMUM_TOUCH_RATIO
  then true else flag

/-- The body of `_compute_urgencies`, recursing over the vocabulary with
the loop variables `i` (`enumerate` index), `touched` and
`has_reached_threshold` (updated through `flagStep`).  An empty `modes`
list raises (`IndexError` / `ValueError` on the first processed unit), as
does an invalid score inside `needs_introduction`. -/
def computeUrgenciesGo (expFn : ℚ → ℚ)
    (ratings : List (String × List Rating)) (modes : List Mode)
    (current_time : ℚ) :
    Nat → Nat → Bool → List String →
    Except String (List (String × UrgencyState))
  | _, _, _, [] => .ok []
  | i, touched, flag, unit :: restVocab => do
    let flag := flagStep i touched flag
    let history? := dictGet ratings unit
    match history? with
    | none =>
        match modes with
        | [] => .error "IndexError: modes is empty"
        | m0 :: _ => do
          let rest ← computeUrgenciesGo expFn ratings modes current_time
            (i + 1) touched flag restVocab
          pure ((unit,
            { is_touched := false, needs_intro := false,
              is_target := !flag, urgency := 0, mode := m0 }) :: rest)
    | some history =>
        if isUntouched history then
          match modes with
          | [] => .error "IndexError: modes is empty"
          | m0 :: _ => do
            let rest ← computeUrgenciesGo expFn ratings modes current_time
              (i + 1) touched flag restVocab
            pure ((unit,
              { is_touched := false, needs_intro := false,
                is_target := !flag, urgency := 0, mode := m0 }) :: rest)
        else
          match modes with
          | [] => .error "ValueError: max() arg is an empty sequence"
          | m0 :: restModes => do
            let (highest_urgency, mode) :=
              maxUrgencyMode expFn history current_time m0 restModes
            let introduction_mode ← needsIntroduction history modes
            let mode :=
              match introduction_mode with
              | some im => im
              | none => mode
            let rest ← computeUrgenciesGo expFn ratings modes current_time
              (i + 1) (touched + 1) flag restVocab
            pure ((unit,
              { is_touched := true,
                needs_intro := introduction_mode.isSome,
                is_target := !flag, urgency := highest_urgency,
                mode := mode }) :: rest)

/-- `_compute_urgencies(current_time)` from `deck.py`, returning the
`urgency_states` dict as an association list in vocabulary order. -/
def computeUrgencies (expFn : ℚ → ℚ)
    (ratings : List (String × List Rating)) (modes : List Mode)
    (vocab : List String) (current_time : ℚ) :
    Except String (List (String × UrgencyState)) :=
  computeUrgenciesGo expFn ratings modes current_time 0 0 false vocab

/-- The first loop of `_choose_task`: walk the vocabulary (here: the
`urgency_states` entries, which are in vocabulary order), skip units
without cards, collect targets, and break at the first non-target. -/
def buildTargets (cardSize : String → Nat) :
    List (String × UrgencyState) → List (String × UrgencyState)
  | [] => []
  | (unit, state) :: rest =>
      if cardSize unit = 0 then buildTargets cardSize rest
      else if state.is_target then (unit, state) :: buildTargets cardSize rest
      else []

/-- `max(target_states, key=lambda s: s[1].urgency)`: first element with
the maximal key. -/
def maxByUrgency (t0 : String × UrgencyState) (rest : List (String × UrgencyState)) :
    String × UrgencyState :=
  rest.foldl (fun acc p => if acc.2.urgency < p.2.urgency then p else acc) t0

/-- `_choose_task(urgency_states)` from `deck.py`.  The `ValueError` on an
empty candidate list is an `Except.error`. -/
def chooseTask (cardSize : String → Nat)
    (urgency_states : List (String × UrgencyState)) :
    Except String (Mode × String) :=
  let target_states := buildTargets cardSize urgency_states
  -- Step 1: Return the first urgent unit.
  match target_states.find? (fun p => 0 < p.2.urgency) with
  | some (unit, state) => .ok (state.mode, unit)
  | none =>
    -- Step 2: Touched and needs introduction.
    match target_states.find? (fun p => p.2.needs_intro) with
    | some (unit, state) => .ok (state.mode, unit)
    | none =>
      -- Step 3: Untouched, but a target.
      match target_states.find? (fun p => !p.2.is_touched) with
      | some (unit, state) => .ok (state.mode, unit)
      | none =>
        -- Step 4: Highest urgency.
        match target_states with
        | [] => .error "No units found"
        | t0 :: rest =>
            let (unit, state) := maxByUrgency t0 rest
            .ok (state.mode, unit)

/-- `_score_card(card, urgency_states, current_time)` from `deck.py`.
A unit tagged on the card but absent from `urgency_states` raises
(`KeyError`). -/
def scoreCard (expFn : ℚ → ℚ)
    (card_id_uses : List (String × List CardUsage))
    (difficultyMap : String → Option Difficulty) (difficulty : Difficulty)
    (card : Card) (urgency_states : List (String × UrgencyState))
    (current_time : ℚ) : Except String ℚ := do
  let usages := (dictGet card_id_uses card.id).getD []
  let score : ℚ := 0
  let score := usages.foldl
    (fun sc usage => if usage.is_reported then sc - REPORT_PENALTY else sc)
    score
  let timestamps := usages.map (fun usage => usage.time)
  let days := timestamps.map (fun t => (current_time - t) / 60 / 60 / 24)
  let score := score -
    CARD_USAGE_FACTOR * (days.map (fun d => expFn (-(CARD_USAGE_DECAY * d)))).sum
  card.units.foldlM
    (fun sc unit => do
      match dictGet urgency_states unit with
      | none => .error "KeyError"
      | some state => do
        let sc := if !state.is_target then sc - NONTARGET_PENALTY else sc
        let sc := if !state.is_touched then sc - UNTOUCHED_PENALTY else sc
        let sc := if state.needs_intro then sc + INTRODUCTION_BONUS else sc
        let sc := if 0 < state.urgency then sc + URGENCY_BONUS else sc
        let unit_difficulty := (difficultyMap unit).getD Difficulty.A1
        let sc :=
          if unit_difficulty = difficulty then sc + DIFFICULTY_MATCH_BONUS
          else if difficulty.toStr < unit_difficulty.toStr then
            sc + DIFFICULTY_PENALTY
          else sc
        pure sc)
    score

/-- `rate(unit, mode, score)` from `deck.py`; `time` is the
`datetime.now().timestamp()` taken inside the call. -/
def rate (deck : Deck) (unit : String) (mode : Mode) (score : Int)
    (time : ℚ) : Deck :=
  let rating : Rating := { mode := mode, time := time, score := score }
  let ratings := (dictGet deck.ratings unit).getD []
  { deck with ratings := dictSet deck.ratings unit (ratings ++ [rating]) }

/-- The fallback loop in `draw` after `self.rate(unit, mode, 0)`: rebinds
`cards` to each unit's cards in vocabulary order, breaking at the first
nonempty one; if none is nonempty, `cards` keeps its last assignment. -/
def fallbackCards (cardStore : String → List Card) :
    List Card → List String → List Card
  | cards, [] => cards
  | _, unit :: rest =>
      let cards := cardStore unit
      if cards ≠ [] then cards else fallbackCards cardStore cards rest

/-- `max(scored_cards, key=lambda pair: pair[0])`: first element with the
maximal score. -/
def maxByScore (p0 : ℚ × Card) (rest : List (ℚ × Card)) : ℚ × Card :=
  rest.foldl (fun acc p => if acc.1 < p.1 then p else acc) p0

/-- `draw()` from `deck.py`.  `current_time` models
`datetime.now().timestamp()`, `shuffle` models the in-place
`random.shuffle`, `expFn` models `np.exp`.  Returns the drawn
`(mode, card)` pair together with the (possibly mutated, through the
fallback's forced zero rating) deck; Python exceptions (`ValueError` from
`_choose_task` or from `max` on an empty sequence, `KeyError` from
`_score_card`, errors from `_compute_urgencies`) are `Except.error`. -/
def draw (expFn : ℚ → ℚ) (shuffle : List Card → List Card) (deck : Deck)
    (current_time : ℚ) : Except String (Mode × Card × Deck) := do
  let urgency_states ← computeUrgencies expFn deck.ratings deck.modes
    deck.vocab current_time
  let (mode, unit) ← chooseTask (fun u => (deck.cardStore u).length)
    urgency_states
  let cards := deck.cardStore unit
  let (cards, deck) :=
    if cards = [] then
      (fallbackCards deck.cardStore cards deck.vocab,
       rate deck unit mode 0 current_time)
    else (cards, deck)
  let cards := shuffle cards
  let scored_cards ← cards.mapM (fun card => do
    pure ((← scoreCard expFn deck.card_id_uses deck.difficultyMap
      deck.difficulty card urgency_states current_time), card))
  match scored_cards with
  | [] => .error "ValueError: max() arg is an empty sequence"
  | p0 :: rest =>
      let (_, best_card) := maxByScore p0 rest
      pure (mode, best_card, deck)

/-- `rating.model_dump()` as serialized into the save document: the
StrEnum mode becomes its string value. -/
structure RatingDoc where
  mode : String
  time : ℚ
  score : Int
deriving DecidableEq, Repr

/-- `usage.model_dump()` as serialized into the save document. -/
structure CardUsageDoc where
  time : ℚ
  is_reported : Bool
deriving DecidableEq, Repr

/-- The JSON document written by `Deck.save`. -/
structure SaveDoc where
  target_language : String
  native_language : String
  ratings : List (String × List RatingDoc)
  card_id_uses : List (String × List CardUsageDoc)
  difficulty : String
  modes : List String
deriving Repr

/-- Serialization of one `Rating` (`rating.model_dump()` under
`json.dump`). -/
def ratingDump (r : Rating) : RatingDoc :=
  { mode := r.mode.toStr, time := r.time, score := r.score }

/-- Serialization of one `CardUsage`. -/
def usageDump (u : CardUsage) : CardUsageDoc :=
  { time := u.time, is_reported := u.is_reported }

/-- `Rating.model_validate(r)`: fails on an unknown mode string. -/
def ratingValidate (d : RatingDoc) : Except String Rating :=
  match Mode.ofStr d.mode with
  | none => .error "ValidationError: mode"
  | some m => .ok { mode := m, time := d.time, score := d.score }

/-- `CardUsage.model_validate(u)`. -/
def usageValidate (d : CardUsageDoc) : Except String CardUsage :=
  .ok { time := d.time, is_reported := d.is_reported }

/-- `Deck.save` from `deck.py`: the serialized document. -/
def save (deck : Deck) : SaveDoc :=
  { target_language := deck.target_language,
    native_language := deck.native_language,
    ratings := deck.ratings.map
      (fun p => (p.1, p.2.map ratingDump)),
    card_id_uses := deck.card_id_uses.map
      (fun p => (p.1, p.2.map usageDump)),
    difficulty := deck.difficulty.toStr,
    modes := deck.modes.map Mode.toStr }

/-- `Deck.load` from `deck.py`.  `base` models the freshly constructed
`cls(LANGUAGES[...], LANGUAGES[...])` deck (its card index, vocabulary and
difficulty map come from the languages, not from the document); the
document's ratings, usages, difficulty and modes are then installed. -/
def load (doc : SaveDoc) (base : Deck) : Except String Deck := do
  let ratings ← doc.ratings.mapM (fun p => do
    pure (p.1, ← p.2.mapM ratingValidate))
  let card_id_uses ← doc.card_id_uses.mapM (fun p => do
    pure (p.1, ← p.2.mapM usageValidate))
  let difficulty ←
    match Difficulty.ofStr doc.difficulty with
    | none => .error "ValueError: difficulty"
    | some d => pure d
  let modes ← doc.modes.mapM (fun s =>
    match Mode.ofStr s with
    | none => Except.error "ValueError: mode"
    | some m => Except.ok m)
  pure { base with ratings := ratings, card_id_uses := card_id_uses,
                   difficulty := difficulty, modes := modes }

/-! ## Helper lemmas -/

instance {ε α : Type} [DecidableEq ε] [DecidableEq α] :
    DecidableEq (Except ε α) := fun a b =>
  match a, b with
  | .ok x, .ok y =>
      if h : x = y then .isTrue (by rw [h]) else .isFalse (by simp [h])
  | .error x, .error y =>
      if h : x = y then .isTrue (by rw [h]) else .isFalse (by simp [h])
  | .ok _, .error _ => .isFalse (by simp)
  | .error _, .ok _ => .isFalse (by simp)

theorem dictGet_dictSet_self {α : Type} (d : List (String × α)) (k : String)
    (v : α) : dictGet (dictSet d k v) k = some v := by
  induction d with
  | nil => simp [dictGet, dictSet, List.find?]
  | cons p rest ih =>
      obtain ⟨k', v'⟩ := p
      by_cases h : k' = k
      · subst h
        simp [dictGet, dictSet, List.find?]
      · simp only [dictSet, if_neg h]
        simpa [dictGet, List.find?, h] using ih

theorem dictGet_dictSet_other {α : Type} (d : List (String × α))
    (k u : String) (v : α) (h : u ≠ k) :
    dictGet (dictSet d k v) u = dictGet d u := by
  induction d with
  | nil => simp [dictGet, dictSet, List.find?, Ne.symm h]
  | cons p rest ih =>
      obtain ⟨k', v'⟩ := p
      by_cases hk : k' = k
      · subst hk
        simp [dictGet, dictSet, List.find?, Ne.symm h]
      · simp only [dictSet, if_neg hk]
        by_cases hu : k' = u
        · subst hu
          simp [dictGet, List.find?]
        · simpa [dictGet, List.find?, hu] using ih

/-! ## C10: `rate` appends one rating and changes nothing else -/

/-- C10: `rate(unit, mode, score)` appends exactly one `Rating` with that
mode and score at the end of the unit's history; every other unit's
history, the card-usage map, the difficulty and the modality list are
unchanged. -/
theorem c10_rate_frame (deck : Deck) (unit : String) (mode : Mode)
    (score : Int) (time : ℚ) :
    dictGet (rate deck unit mode score time).ratings unit =
      some (((dictGet deck.ratings unit).getD []) ++
        [{ mode := mode, time := time, score := score }]) ∧
    (∀ u, u ≠ unit →
      dictGet (rate deck unit mode score time).ratings u =
        dictGet deck.ratings u) ∧
    (rate deck unit mode score time).card_id_uses = deck.card_id_uses ∧
    (rate deck unit mode score time).difficulty = deck.difficulty ∧
    (rate deck unit mode score time).modes = deck.modes := by
  refine ⟨?_, ?_, rfl, rfl, rfl⟩
  · simp [rate, dictGet_dictSet_self]
  · intro u hu
    simp [rate, dictGet_dictSet_other _ _ _ _ hu]

/-- A concrete deck used by witnesses. -/
def witnessDeck : Deck :=
  { target_language := "japanese", native_language := "english",
    ratings := [("a", [{ mode := .listen, time := 0, score := 3 }])],
    card_id_uses := [("c", [{ time := 0, is_reported := false }])],
    difficulty := .A1, modes := [.listen],
    vocab := ["a", "b"], difficultyMap := fun _ => some .A1,
    cardStore := fun _ => [] }

/-- Witness for C10 at a concrete deck, unit and second unit. -/
theorem c10_witness :
    dictGet (rate witnessDeck "a" .speak 2 5).ratings "a" =
      some (((dictGet witnessDeck.ratings "a").getD []) ++
        [{ mode := .speak, time := 5, score := 2 }]) ∧
    dictGet (rate witnessDeck "a" .speak 2 5).ratings "b" =
      dictGet witnessDeck.ratings "b" ∧
    (rate witnessDeck "a" .speak 2 5).card_id_uses =
      witnessDeck.card_id_uses ∧
    (rate witnessDeck "a" .speak 2 5).difficulty = witnessDeck.difficulty ∧
    (rate witnessDeck "a" .speak 2 5).modes = witnessDeck.modes := by
  obtain ⟨h1, h2, h3, h4, h5⟩ := c10_rate_frame witnessDeck "a" .speak 2 5
  exact ⟨h1, h2 "b" (by decide), h3, h4, h5⟩

/-! ## C1: a failing last nonzero rating pins urgency at 1.0 -/

/-- Reduction of `compute_urgency` once the initial all-zero check failed
and the last nonzero rating is known. -/
theorem computeUrgency_eq (expFn : ℚ → ℚ) (history : List Rating)
    (mode : Mode) (t : ℚ) (r : Rating)
    (hall : ¬ (history.all fun x => x.mode ≠ mode ∨ x.score = 0) = true)
    (hfind : lastNonZero history mode = some r) :
    computeUrgency expFn history mode t =
      if r.score = 1 ∨ r.score = 2 then 1
      else if t < (history.getLastD dummyRating).time + BLOCK_INTERVAL then -1
      else
        match extractGoodInterval history mode with
        | (none, _) => 1
        | (some last_good, good_interval_length) =>
          let target_interval := good_interval_length * INTERVAL_FACTOR
          let target := last_good + target_interval
          let deviation := (t - target) / target_interval
          1 / (1 + expFn (-deviation)) - 1/2 := by
  unfold computeUrgency
  rw [if_neg hall, hfind]

/-- C1: whenever the most recent nonzero-score rating of the given
modality has score 1 or 2, `compute_urgency` returns exactly 1.0 for any
current time (in particular inside the block interval), for any
exponential routine. -/
theorem c1_fail_score_urgency_one (expFn : ℚ → ℚ) (history : List Rating)
    (mode : Mode) (current_time : ℚ) (r : Rating)
    (hfind : lastNonZero history mode = some r)
    (hscore : r.score = 1 ∨ r.score = 2) :
    computeUrgency expFn history mode current_time = 1 := by
  have hmem : r ∈ history := by
    have := List.mem_of_find?_eq_some hfind
    simpa using this
  have hpred := List.find?_some hfind
  simp only [decide_eq_true_eq] at hpred
  have hall : ¬ (history.all fun x => x.mode ≠ mode ∨ x.score = 0) = true := by
    intro h
    have := List.all_eq_true.mp h r hmem
    simp only [decide_eq_true_eq] at this
    rcases this with h1 | h2
    · exact h1 hpred.1
    · exact hpred.2 h2
  rw [computeUrgency_eq expFn history mode current_time r hall hfind,
    if_pos hscore]

/-- Witness for C1: a lone fail rating at time 0, queried one second
later (inside the block interval): urgency is 1.0. -/
theorem c1_witness :
    computeUrgency (fun _ => 0)
      [{ mode := .listen, time := 0, score := 1 }] .listen 1 = 1 :=
  c1_fail_score_urgency_one (fun _ => 0) _ .listen 1
    { mode := .listen, time := 0, score := 1 } (by decide) (by decide)

/-! ## C2: block suppression right after a rating -/

/-- C2 counterexample: a first-ever rating with score 1 at time 0, queried
at time 1 (well inside the block interval), yields urgency 1.0, not the
claimed -1.0; the failure branch of `compute_urgency` fires before the
block check. -/
theorem c2_counterexample :
    computeUrgency (fun _ => 0)
      [{ mode := .listen, time := 0, score := 1 }] .listen (0 + 1) = 1 ∧
    computeUrgency (fun _ => 0)
      [{ mode := .listen, time := 0, score := 1 }] .listen (0 + 1) ≠ -1 := by
  constructor
  · decide
  · decide

/-- C2 amended: immediately after a rating with score 3 at time `t0`
(also a first-ever rating), `compute_urgency` for that modality at
`t0 + 1` returns -1.0. -/
theorem c2_amended_block_after_success (expFn : ℚ → ℚ)
    (past : List Rating) (m : Mode) (t0 : ℚ) :
    computeUrgency expFn
      (past ++ [{ mode := m, time := t0, score := 3 }]) m (t0 + 1) = -1 := by
  set r : Rating := { mode := m, time := t0, score := 3 } with hr
  have hall : ¬ ((past ++ [r]).all fun x => x.mode ≠ m ∨ x.score = 0) = true := by
    intro h
    have := List.all_eq_true.mp h r (by simp)
    simp [hr] at this
  have hfind : lastNonZero (past ++ [r]) m = some r := by
    unfold lastNonZero
    rw [List.reverse_append]
    simp [List.find?, hr]
  have hlast : ((past ++ [r]).getLastD dummyRating) = r := by
    simp [List.getLastD_concat]
  rw [computeUrgency_eq expFn (past ++ [r]) m (t0 + 1) r hall hfind,
    if_neg (by simp [hr]), hlast, if_pos]
  show t0 + 1 < r.time + BLOCK_INTERVAL
  simp only [hr, BLOCK_INTERVAL]
  norm_num

/-! ## C9: the difficulty "penalty" is added, not subtracted -/

/-- Urgency states for the C9 evaluation: one target, touched unit with
non-positive urgency and no pending introduction. -/
def c9States : List (String × UrgencyState) :=
  [("u", { is_touched := true, needs_intro := false, is_target := true,
           urgency := 0, mode := .listen })]

/-- C9: scoring a never-shown card tagging exactly one unit whose
difficulty (A2) strictly exceeds the configured difficulty (A1), with all
other bonuses and penalties inert, yields +0.1: `_score_card` executes
`score += DIFFICULTY_PENALTY`, increasing the score instead of decreasing
it as the specification requires. -/
theorem c9_difficulty_penalty_added :
    scoreCard (fun _ => 0) [] (fun _ => some .A2) .A1
        { id := "c1", units := ["u"] } c9States 0 = .ok (1/10) ∧
    (0 : ℚ) < 1/10 := by
  constructor
  · with_unfolding_all decide
  · norm_num

/-! ## C7: the 14-day floor of the interval extractor -/

/-- Characterization of the `has_green` flag of `_extract_good_interval`:
some rating of the modality has score 3 and occurs strictly after the
block window of the previous rating (of any modality; `gb` is the incoming
`good_block`). -/
def hasAcceptedGreen (mode : Mode) : ℚ → List Rating → Bool
  | _, [] => false
  | gb, r :: rest =>
      (decide (r.mode = mode) && decide (r.score = 3) && decide (gb < r.time))
        || hasAcceptedGreen mode (r.time + BLOCK_INTERVAL) rest

theorem extractStep_good_block (mode : Mode) (s : ExtractState) (r : Rating) :
    (extractStep mode s r).good_block = r.time + BLOCK_INTERVAL := by
  unfold extractStep
  by_cases h1 : r.mode = mode <;>
    by_cases h2 : r.score = 1 ∨ r.score = 2 <;>
      by_cases h3 : r.score = 3 ∧ s.good_block < r.time <;>
        simp [h1, h2, h3] <;> cases hfg : s.first_good <;> simp

theorem extractStep_has_green (mode : Mode) (s : ExtractState) (r : Rating) :
    (extractStep mode s r).has_green =
      (s.has_green ||
        (decide (r.mode = mode) && decide (r.score = 3) &&
          decide (s.good_block < r.time))) := by
  unfold extractStep
  by_cases h1 : r.mode = mode
  · by_cases h2 : r.score = 1 ∨ r.score = 2
    · have h3 : ¬ r.score = 3 := by rcases h2 with h | h <;> omega
      simp [h1, h2, h3]
    · by_cases h3 : r.score = 3 ∧ s.good_block < r.time
      · cases hfg : s.first_good <;> simp [h1, h2, h3, hfg]
      · rcases Decidable.not_and_iff_or_not.mp h3 with h4 | h4 <;>
          simp [h1, h2, h3, h4]
  · simp [h1]

theorem extractStep_has_red (mode : Mode) (s : ExtractState) (r : Rating) :
    (extractStep mode s r).has_red =
      (s.has_red ||
        (decide (r.mode = mode) && decide (r.score = 1 ∨ r.score = 2))) := by
  unfold extractStep
  by_cases h1 : r.mode = mode
  · by_cases h2 : r.score = 1 ∨ r.score = 2
    · simp [h1, h2]
    · by_cases h3 : r.score = 3 ∧ s.good_block < r.time
      · cases hfg : s.first_good <;> simp [h1, h2, h3, hfg]
      · simp [h1, h2, h3]
  · simp [h1]

theorem foldl_extract_has_green (mode : Mode) (history : List Rating) :
    ∀ s : ExtractState,
      (history.foldl (extractStep mode) s).has_green =
        (s.has_green || hasAcceptedGreen mode s.good_block history) := by
  induction history with
  | nil => intro s; simp [hasAcceptedGreen]
  | cons r rest ih =>
      intro s
      rw [List.foldl_cons, ih (extractStep mode s r), extractStep_has_green,
        extractStep_good_block]
      simp [hasAcceptedGreen, Bool.or_assoc]

theorem foldl_extract_has_red (mode : Mode) (history : List Rating) :
    ∀ s : ExtractState,
      (history.foldl (extractStep mode) s).has_red =
        (s.has_red ||
          history.any fun r =>
            decide (r.mode = mode) && decide (r.score = 1 ∨ r.score = 2)) := by
  induction history with
  | nil => intro s; simp
  | cons r rest ih =>
      intro s
      rw [List.foldl_cons, ih (extractStep mode s r), extractStep_has_red]
      simp [Bool.or_assoc]

/-- The history of the C7 counterexample: a success in another modality at
time 0, then a LISTEN success at time 1 — inside the 20-hour block window
of the previous rating. -/
def c7History : List Rating :=
  [{ mode := .speak, time := 0, score := 3 },
   { mode := .listen, time := 1, score := 3 }]

/-- C7 counterexample: the LISTEN ratings of `c7History` contain a success
and no fail/near-fail, yet `_extract_good_interval` returns a streak
length of 1.0 second — far below the claimed 14-day floor — because the
success is blocked and `has_green` never fires. -/
theorem c7_counterexample :
    ((c7History.filter fun r => r.mode = .listen).any fun r => r.score = 3) = true ∧
    ((c7History.filter fun r => r.mode = .listen).any fun r =>
      r.score = 1 ∨ r.score = 2) = false ∧
    (extractGoodInterval c7History .listen).2 = 1 ∧
    ¬ ALL_GREEN_MINIMUM ≤ (extractGoodInterval c7History .listen).2 := by
  refine ⟨by decide, by decide, by with_unfolding_all decide,
    by with_unfolding_all decide⟩

/-- C7 amended: if the modality's ratings contain no fail/near-fail and at
least one success that falls strictly outside the block window of the
preceding rating (so that the extractor registers it), the streak length
is floored at 14 days. -/
theorem c7_amended_floor (history : List Rating) (mode : Mode)
    (hnored : ∀ r ∈ history, r.mode = mode → ¬(r.score = 1 ∨ r.score = 2))
    (hgreen : hasAcceptedGreen mode (-100000) history = true) :
    ALL_GREEN_MINIMUM ≤ (extractGoodInterval history mode).2 := by
  unfold extractGoodInterval
  have hg : (history.foldl (extractStep mode) extractInit).has_green = true := by
    rw [foldl_extract_has_green]
    simp [extractInit, hgreen]
  have hr : (history.foldl (extractStep mode) extractInit).has_red = false := by
    rw [foldl_extract_has_red]
    simp only [extractInit, Bool.false_or, List.any_eq_false]
    intro r hrmem
    rcases hm : decide (r.mode = mode) with _ | _
    · simp
    · simp only [Bool.true_and]
      simpa using hnored r hrmem (of_decide_eq_true hm)
  simp only [hg, hr]
  simp [le_max_right]

/-- Witness for C7 amended: one unblocked LISTEN success, no fails; the
streak length is exactly the 14-day minimum. -/
theorem c7_witness :
    ALL_GREEN_MINIMUM ≤
      (extractGoodInterval [{ mode := .listen, time := 0, score := 3 }] .listen).2 :=
  c7_amended_floor [{ mode := .listen, time := 0, score := 3 }] .listen
    (by decide) (by decide)

/-! ## C8: the perfect-start exemption of `needs_introduction` -/

theorem except_bind_ok {α β : Type} (a : α) (f : α → Except String β) :
    (Except.ok a >>= f) = f a := rfl

/-- The exemption condition of `needs_introduction` on a history: some
modality's qualifying first score is a success and every recorded first
score is absent (0) or a success. -/
def perfectStart (history : List Rating) : Bool :=
  match introStateOf history with
  | .error _ => false
  | .ok s =>
      (s.seen.any fun m => s.first_score m = 3) &&
      (s.seen.all fun m => s.first_score m = 0 ∨ s.first_score m = 3)

/-- C8: on a nonempty history satisfying the perfect-start condition
(at least one modality's qualifying first score is a success, and no
modality's first score is a fail/near-fail), `needs_introduction` returns
none, for every modality list. -/
theorem c8_perfect_start_none (history : List Rating) (modes : List Mode)
    (hne : history ≠ []) (hps : perfectStart history = true) :
    needsIntroduction history modes = .ok none := by
  unfold needsIntroduction
  cases modes with
  | nil => rfl
  | cons m0 restm =>
    cases history with
    | nil => exact absurd rfl hne
    | cons h0 rest =>
      unfold perfectStart at hps
      cases hio : introStateOf (h0 :: rest) with
      | error e => rw [hio] at hps; simp at hps
      | ok s =>
          rw [hio] at hps
          simp only [needsIntroduction, hio, except_bind_ok]
          rw [if_pos hps]
          rfl

/-- Witness for C8: two LISTEN successes exactly 20 hours apart, no fail
ratings: `needs_introduction` returns none. -/
theorem c8_witness :
    needsIntroduction
      [{ mode := .listen, time := 0, score := 3 },
       { mode := .listen, time := 72000, score := 3 }] [.listen] = .ok none :=
  c8_perfect_start_none _ [.listen] (by decide) (by with_unfolding_all decide)

/-! ## C5: save/load round trip -/

theorem mode_ofStr_toStr (m : Mode) : Mode.ofStr m.toStr = some m := by
  cases m <;> rfl

theorem difficulty_ofStr_toStr (d : Difficulty) :
    Difficulty.ofStr d.toStr = some d := by
  cases d <;> rfl

theorem ratingValidate_dump (r : Rating) :
    ratingValidate (ratingDump r) = .ok r := by
  obtain ⟨m, t, sc⟩ := r
  simp [ratingDump, ratingValidate, mode_ofStr_toStr]

theorem usageValidate_dump (u : CardUsage) :
    usageValidate (usageDump u) = .ok u := rfl

theorem mapM_map_ok {α β : Type} (f : β → Except String α) (g : α → β)
    (h : ∀ a, f (g a) = .ok a) (xs : List α) :
    (xs.map g).mapM f = .ok xs := by
  induction xs with
  | nil => rfl
  | cons a rest ih =>
      simp only [List.map_cons, List.mapM_cons, h a, except_bind_ok, ih]
      rfl

theorem mapM_pairs_ratings (l : List (String × List Rating)) :
    ((l.map fun p => (p.1, p.2.map ratingDump)).mapM fun p => do
      pure (p.1, ← p.2.mapM ratingValidate)) = .ok l := by
  induction l with
  | nil => rfl
  | cons p rest ih =>
      obtain ⟨k, rs⟩ := p
      simp only [List.map_cons, List.mapM_cons,
        mapM_map_ok ratingValidate ratingDump ratingValidate_dump rs,
        except_bind_ok, ih]
      rfl

theorem mapM_pairs_usages (l : List (String × List CardUsage)) :
    ((l.map fun p => (p.1, p.2.map usageDump)).mapM fun p => do
      pure (p.1, ← p.2.mapM usageValidate)) = .ok l := by
  induction l with
  | nil => rfl
  | cons p rest ih =>
      obtain ⟨k, us⟩ := p
      simp only [List.map_cons, List.mapM_cons,
        mapM_map_ok usageValidate usageDump usageValidate_dump us,
        except_bind_ok, ih]
      rfl

theorem mode_parse_toStr (m : Mode) :
    (match Mode.ofStr m.toStr with
      | none => Except.error "ValueError: mode"
      | some m' => Except.ok m') = .ok m := by
  rw [mode_ofStr_toStr]

/-- C5: loading the document produced by `save` restores ratings, card
usages, difficulty and modality list exactly (the remaining fields come
from the freshly constructed deck `base`, as in `Deck.load`). -/
theorem c5_save_load_roundtrip (deck base : Deck) :
    load (save deck) base = .ok
      { base with ratings := deck.ratings,
                  card_id_uses := deck.card_id_uses,
                  difficulty := deck.difficulty,
                  modes := deck.modes } := by
  unfold load save
  simp only [mapM_pairs_ratings, mapM_pairs_usages, except_bind_ok,
    difficulty_ofStr_toStr,
    mapM_map_ok
      (fun s => match Mode.ofStr s with
        | none => Except.error "ValueError: mode"
        | some m => Except.ok m)
      Mode.toStr mode_parse_toStr deck.modes]
  rfl

/-! ## Structure of `_compute_urgencies` -/

theorem except_bind_error {α β : Type} (e : String)
    (f : α → Except String β) : ((Except.error e : Except String α) >>= f) = .error e := rfl

theorem flagStep_true (i touched : Nat) : flagStep i touched true = true := by
  unfold flagStep; split <;> rfl

theorem flagStep_zero : flagStep 0 0 false = false := by
  unfold flagStep
  rw [if_neg]
  push_cast
  rw [not_lt]
  norm_num [TOUCH_MARGIN, MINIMUM_TOUCH_RATIO]

theorem go_nil_inv (expFn : ℚ → ℚ) (ratings : List (String × List Rating))
    (modes : List Mode) (t : ℚ) (i touched : Nat) (flag : Bool)
    (states : List (String × UrgencyState))
    (h : computeUrgenciesGo expFn ratings modes t i touched flag [] = .ok states) :
    states = [] := by
  simp only [computeUrgenciesGo, Except.ok.injEq] at h
  exact h.symm

theorem go_cons_inv (expFn : ℚ → ℚ) (ratings : List (String × List Rating))
    (modes : List Mode) (t : ℚ) (i touched : Nat) (flag : Bool)
    (unit : String) (restVocab : List String)
    (states : List (String × UrgencyState))
    (h : computeUrgenciesGo expFn ratings modes t i touched flag
          (unit :: restVocab) = .ok states) :
    ∃ st touched' states',
      states = (unit, st) :: states' ∧
      computeUrgenciesGo expFn ratings modes t (i + 1) touched'
        (flagStep i touched flag) restVocab = .ok states' ∧
      st.is_target = !(flagStep i touched flag) ∧
      (st.is_touched = false → st.urgency = 0) := by
  simp only [computeUrgenciesGo] at h
  cases hdg : dictGet ratings unit with
  | none =>
      rw [hdg] at h
      dsimp only at h
      cases modes with
      | nil => cases h
      | cons m0 restModes =>
          dsimp only at h
          cases hrec : computeUrgenciesGo expFn ratings (m0 :: restModes) t
              (i + 1) touched (flagStep i touched flag) restVocab with
          | error e => rw [hrec, except_bind_error] at h; cases h
          | ok l =>
              rw [hrec, except_bind_ok] at h
              refine ⟨_, touched, l, ((Except.ok.injEq _ _).mp h).symm,
                hrec, rfl, fun _ => rfl⟩
  | some history =>
      rw [hdg] at h
      dsimp only at h
      by_cases hiu : isUntouched history = true
      · rw [if_pos hiu] at h
        cases modes with
        | nil => cases h
        | cons m0 restModes =>
            dsimp only at h
            cases hrec : computeUrgenciesGo expFn ratings (m0 :: restModes) t
                (i + 1) touched (flagStep i touched flag) restVocab with
            | error e => rw [hrec, except_bind_error] at h; cases h
            | ok l =>
                rw [hrec, except_bind_ok] at h
                refine ⟨_, touched, l, ((Except.ok.injEq _ _).mp h).symm,
                  hrec, rfl, fun _ => rfl⟩
      · rw [if_neg hiu] at h
        cases modes with
        | nil => cases h
        | cons m0 restModes =>
            dsimp only at h
            rcases hmx : maxUrgencyMode expFn history t m0 restModes with
              ⟨hu, md⟩
            rw [hmx] at h
            dsimp only at h
            cases hni : needsIntroduction history (m0 :: restModes) with
            | error e => rw [hni, except_bind_error] at h; cases h
            | ok io =>
                rw [hni, except_bind_ok] at h
                cases hrec : computeUrgenciesGo expFn ratings
                    (m0 :: restModes) t (i + 1) (touched + 1)
                    (flagStep i touched flag) restVocab with
                | error e => rw [hrec, except_bind_error] at h; cases h
                | ok l =>
                    rw [hrec, except_bind_ok] at h
                    refine ⟨_, touched + 1, l,
                      ((Except.ok.injEq _ _).mp h).symm, hrec, rfl,
                      fun hc => by simp at hc⟩

/-- Placeholder entry for positional access to urgency-state lists. -/
def dummyEntry : String × UrgencyState :=
  ("", { is_touched := false, needs_intro := false, is_target := false,
         urgency := 0, mode := .listen })

theorem go_flag_true_all (expFn : ℚ → ℚ)
    (ratings : List (String × List Rating)) (modes : List Mode) (t : ℚ) :
    ∀ (vocab : List String) (i touched : Nat)
      (states : List (String × UrgencyState)),
      computeUrgenciesGo expFn ratings modes t i touched true vocab =
        .ok states →
      ∀ p ∈ states, p.2.is_target = false := by
  intro vocab
  induction vocab with
  | nil =>
      intro i touched states h p hp
      rw [go_nil_inv _ _ _ _ _ _ _ _ h] at hp
      cases hp
  | cons u rest ih =>
      intro i touched states h p hp
      obtain ⟨st, touched', states', hstates, hrec, htarget, _⟩ :=
        go_cons_inv _ _ _ _ _ _ _ _ _ _ h
      subst hstates
      rcases List.mem_cons.mp hp with hp | hp
      · rw [hp]
        rw [htarget, flagStep_true]
        rfl
      · rw [flagStep_true] at hrec
        exact ih (i + 1) touched' states' hrec p hp

theorem go_untouched_zero (expFn : ℚ → ℚ)
    (ratings : List (String × List Rating)) (modes : List Mode) (t : ℚ) :
    ∀ (vocab : List String) (i touched : Nat) (flag : Bool)
      (states : List (String × UrgencyState)),
      computeUrgenciesGo expFn ratings modes t i touched flag vocab =
        .ok states →
      ∀ p ∈ states, p.2.is_touched = false → p.2.urgency = 0 := by
  intro vocab
  induction vocab with
  | nil =>
      intro i touched flag states h p hp
      rw [go_nil_inv _ _ _ _ _ _ _ _ h] at hp
      cases hp
  | cons u rest ih =>
      intro i touched flag states h p hp
      obtain ⟨st, touched', states', hstates, hrec, _, huz⟩ :=
        go_cons_inv _ _ _ _ _ _ _ _ _ _ h
      subst hstates
      rcases List.mem_cons.mp hp with hp | hp
      · rw [hp]; exact huz
      · exact ih (i + 1) touched' (flagStep i touched flag) states' hrec p hp

theorem go_keys (expFn : ℚ → ℚ) (ratings : List (String × List Rating))
    (modes : List Mode) (t : ℚ) :
    ∀ (vocab : List String) (i touched : Nat) (flag : Bool)
      (states : List (String × UrgencyState)),
      computeUrgenciesGo expFn ratings modes t i touched flag vocab =
        .ok states →
      states.map Prod.fst = vocab := by
  intro vocab
  induction vocab with
  | nil =>
      intro i touched flag states h
      rw [go_nil_inv _ _ _ _ _ _ _ _ h]
      rfl
  | cons u rest ih =>
      intro i touched flag states h
      obtain ⟨st, touched', states', hstates, hrec, _, _⟩ :=
        go_cons_inv _ _ _ _ _ _ _ _ _ _ h
      subst hstates
      rw [List.map_cons, ih (i + 1) touched' (flagStep i touched flag)
        states' hrec]

theorem go_targets_mono (expFn : ℚ → ℚ) (ratings : List (String × List Rating))
    (modes : List Mode) (t : ℚ) :
    ∀ (vocab : List String) (i touched : Nat) (flag : Bool)
      (states : List (String × UrgencyState)),
      computeUrgenciesGo expFn ratings modes t i touched flag vocab =
        .ok states →
      ∀ j, j < states.length →
        (states.getD j dummyEntry).2.is_target = true →
        ∀ k, k ≤ j → (states.getD k dummyEntry).2.is_target = true := by
  intro vocab
  induction vocab with
  | nil =>
      intro i touched flag states h j hj _ k _
      rw [go_nil_inv _ _ _ _ _ _ _ _ h] at hj
      cases hj
  | cons u rest ih =>
      intro i touched flag states h j hj htj k hk
      obtain ⟨st, touched', states', hstates, hrec, htarget, _⟩ :=
        go_cons_inv _ _ _ _ _ _ _ _ _ _ h
      subst hstates
      cases k with
      | zero =>
          rw [List.getD_cons_zero]
          by_cases hst : st.is_target = true
          · exact hst
          · exfalso
            have hflag : flagStep i touched flag = true := by
              cases hfs : flagStep i touched flag
              · rw [hfs] at htarget
                simp only [Bool.not_false] at htarget
                exact absurd htarget hst
              · rfl
            rw [hflag] at hrec
            cases j with
            | zero =>
                rw [List.getD_cons_zero] at htj
                exact hst htj
            | succ j' =>
                rw [List.getD_cons_succ] at htj
                have hj' : j' < states'.length := by
                  simpa using Nat.lt_of_succ_lt_succ hj
                have hmem : states'.getD j' dummyEntry ∈ states' := by
                  rw [List.getD_eq_getElem?_getD, List.getElem?_eq_getElem hj']
                  exact List.getElem_mem _
                have hfalse := go_flag_true_all expFn ratings modes t rest
                  (i + 1) touched' states' hrec _ hmem
                rw [htj] at hfalse
                cases hfalse
      | succ k' =>
          cases j with
          | zero => cases hk
          | succ j' =>
              rw [List.getD_cons_succ] at htj ⊢
              exact ih (i + 1) touched' (flagStep i touched flag) states'
                hrec j' (by simpa using Nat.lt_of_succ_lt_succ hj) htj k'
                (Nat.le_of_succ_le_succ hk)

/-! ## C6: targets form a prefix of the vocabulary -/

/-- C6: in every urgency-state list returned by `_compute_urgencies`, the
`is_target` units form a prefix of vocabulary order (any unit before a
target unit is itself a target — equivalently, everything after a
non-target is non-target), and the first unit is always a target. -/
theorem c6_targets_mono (expFn : ℚ → ℚ)
    (ratings : List (String × List Rating)) (modes : List Mode)
    (vocab : List String) (t : ℚ)
    (states : List (String × UrgencyState))
    (hok : computeUrgencies expFn ratings modes vocab t = .ok states) :
    (∀ i j, i ≤ j → j < states.length →
      (states.getD j dummyEntry).2.is_target = true →
      (states.getD i dummyEntry).2.is_target = true) ∧
    (states ≠ [] → (states.getD 0 dummyEntry).2.is_target = true) := by
  constructor
  · intro i j hij hj ht
    exact go_targets_mono expFn ratings modes t vocab 0 0 false states hok
      j hj ht i hij
  · intro hne
    cases vocab with
    | nil => exact absurd (go_nil_inv _ _ _ _ _ _ _ _ hok) hne
    | cons u rest =>
        obtain ⟨st, touched', states', hstates, _, htarget, _⟩ :=
          go_cons_inv _ _ _ _ _ _ _ _ _ _ hok
        subst hstates
        rw [List.getD_cons_zero, htarget, flagStep_zero]
        rfl

/-- Witness for C6 at a one-word vocabulary with no ratings. -/
theorem c6_witness :
    computeUrgencies (fun _ => 0) [] [.listen] ["a"] 0 =
      .ok [("a", { is_touched := false, needs_intro := false,
                   is_target := true, urgency := 0, mode := .listen })] ∧
    (([("a", { is_touched := false, needs_intro := false,
               is_target := true, urgency := 0,
               mode := .listen })] : List (String × UrgencyState)).getD 0
        dummyEntry).2.is_target = true := by
  refine ⟨by with_unfolding_all decide, ?_⟩
  exact (c6_targets_mono (fun _ => 0) [] [.listen] ["a"] 0 _
    (by with_unfolding_all decide)).2 (by decide)

/-! ## `_choose_task` lemmas -/

/-- The target-prefix invariant on an urgency-state list: any unit at or
before a target unit is itself a target. -/
def TargetsMono (states : List (String × UrgencyState)) : Prop :=
  ∀ j, j < states.length →
    (states.getD j dummyEntry).2.is_target = true →
    ∀ k, k ≤ j → (states.getD k dummyEntry).2.is_target = true

theorem targetsMono_tail (q : String × UrgencyState)
    (rest : List (String × UrgencyState)) (h : TargetsMono (q :: rest)) :
    TargetsMono rest := by
  intro j hj ht k hk
  have := h (j + 1) (by simpa using Nat.succ_lt_succ hj)
    (by rwa [List.getD_cons_succ]) (k + 1) (Nat.succ_le_succ hk)
  rwa [List.getD_cons_succ] at this

theorem targetsMono_head_false (q : String × UrgencyState)
    (rest : List (String × UrgencyState)) (h : TargetsMono (q :: rest))
    (hq : q.2.is_target = false) :
    ∀ p ∈ rest, p.2.is_target = false := by
  intro p hp
  obtain ⟨n, hn, hget⟩ := List.getElem_of_mem hp
  by_cases htp : p.2.is_target = true
  · exfalso
    have h0 := h (n + 1) (by simpa using Nat.succ_lt_succ hn)
      (by rw [List.getD_cons_succ, List.getD_eq_getElem?_getD,
        List.getElem?_eq_getElem hn, Option.getD_some, hget]; exact htp)
      0 (Nat.zero_le _)
    rw [List.getD_cons_zero] at h0
    rw [hq] at h0
    cases h0
  · simpa using htp

theorem buildTargets_subset (cardSize : String → Nat)
    (states : List (String × UrgencyState)) :
    ∀ p ∈ buildTargets cardSize states, p ∈ states := by
  induction states with
  | nil => intro p hp; simpa [buildTargets] using hp
  | cons q rest ih =>
      intro p hp
      unfold buildTargets at hp
      by_cases h0 : cardSize q.1 = 0
      · rw [if_pos h0] at hp
        exact List.mem_cons_of_mem q (ih p hp)
      · rw [if_neg h0] at hp
        by_cases ht : q.2.is_target = true
        · rw [if_pos ht] at hp
          rcases List.mem_cons.mp hp with hp | hp
          · rw [hp]; exact List.mem_cons_self q rest
          · exact List.mem_cons_of_mem q (ih p hp)
        · rw [if_neg ht] at hp
          cases hp
  -- note: the cons case destructures the pair implicitly via projections

theorem buildTargets_mem_prop (cardSize : String → Nat)
    (states : List (String × UrgencyState)) :
    ∀ p ∈ buildTargets cardSize states,
      p.2.is_target = true ∧ cardSize p.1 ≠ 0 := by
  induction states with
  | nil => intro p hp; simp [buildTargets] at hp
  | cons q rest ih =>
      intro p hp
      unfold buildTargets at hp
      by_cases h0 : cardSize q.1 = 0
      · rw [if_pos h0] at hp
        exact ih p hp
      · rw [if_neg h0] at hp
        by_cases ht : q.2.is_target = true
        · rw [if_pos ht] at hp
          rcases List.mem_cons.mp hp with hp | hp
          · rw [hp]; exact ⟨ht, h0⟩
          · exact ih p hp
        · rw [if_neg ht] at hp
          cases hp

theorem buildTargets_mem_of (cardSize : String → Nat)
    (states : List (String × UrgencyState)) (hmono : TargetsMono states) :
    ∀ p ∈ states, p.2.is_target = true → cardSize p.1 ≠ 0 →
      p ∈ buildTargets cardSize states := by
  induction states with
  | nil => intro p hp; cases hp
  | cons q rest ih =>
      intro p hp htp hcp
      unfold buildTargets
      rcases List.mem_cons.mp hp with hp | hp
      · subst hp
        rw [if_neg hcp, if_pos htp]
        exact List.mem_cons_self p (buildTargets cardSize rest)
      · by_cases h0 : cardSize q.1 = 0
        · rw [if_pos h0]
          exact ih (targetsMono_tail q rest hmono) p hp htp hcp
        · rw [if_neg h0]
          by_cases ht : q.2.is_target = true
          · rw [if_pos ht]
            exact List.mem_cons_of_mem q
              (ih (targetsMono_tail q rest hmono) p hp htp hcp)
          · exfalso
            have := targetsMono_head_false q rest hmono
              (by simpa using ht) p hp
            rw [htp] at this
            cases this

/-! ## C3: urgent target units beat untouched ones in `_choose_task` -/

/-- C3: when the urgency states computed by `_compute_urgencies` contain a
target unit with cards and positive urgency (and also an untouched target
unit with cards), `_choose_task` returns a unit whose state has urgency
strictly greater than 0 — hence a touched unit, never an untouched one,
regardless of the units' positions in vocabulary order. -/
theorem c3_urgent_before_untouched (expFn : ℚ → ℚ)
    (ratings : List (String × List Rating)) (modes : List Mode)
    (vocab : List String) (t : ℚ) (cardSize : String → Nat)
    (states : List (String × UrgencyState))
    (hok : computeUrgencies expFn ratings modes vocab t = .ok states)
    (hurgent : ∃ p ∈ states,
      p.2.is_target = true ∧ cardSize p.1 ≠ 0 ∧ 0 < p.2.urgency)
    (huntouched : ∃ p ∈ states,
      p.2.is_target = true ∧ cardSize p.1 ≠ 0 ∧ p.2.is_touched = false) :
    ∃ u st, chooseTask cardSize states = .ok (st.mode, u) ∧
      (u, st) ∈ states ∧ 0 < st.urgency ∧ st.is_touched = true := by
  obtain ⟨p, hpmem, hptgt, hpcard, hpurg⟩ := hurgent
  have hmono : TargetsMono states := fun j hj ht k hk =>
    go_targets_mono expFn ratings modes t vocab 0 0 false states hok j hj ht k hk
  have hpin : p ∈ buildTargets cardSize states :=
    buildTargets_mem_of cardSize states hmono p hpmem hptgt hpcard
  cases hfind : (buildTargets cardSize states).find?
      (fun q => 0 < q.2.urgency) with
  | none =>
      exfalso
      have := List.find?_eq_none.mp hfind p hpin
      simp only [decide_eq_true_eq] at this
      exact this hpurg
  | some q =>
      have hqprop := List.find?_some hfind
      have hqmem := List.mem_of_find?_eq_some hfind
      obtain ⟨u, st⟩ := q
      have hqmem' : (u, st) ∈ states :=
        buildTargets_subset cardSize states (u, st) hqmem
      have hqurg : 0 < st.urgency := by simpa using hqprop
      refine ⟨u, st, ?_, hqmem', hqurg, ?_⟩
      · simp only [chooseTask]
        rw [hfind]
      · by_cases ht : st.is_touched = true
        · exact ht
        · exfalso
          have hz := go_untouched_zero expFn ratings modes t vocab 0 0 false
            states hok (u, st) hqmem' (by simpa using ht)
          rw [hz] at hqurg
          exact lt_irrefl 0 hqurg

/-- The urgency states computed in the C3 witness scenario. -/
def c3States : List (String × UrgencyState) :=
  [("a", { is_touched := true, needs_intro := true, is_target := true,
           urgency := 1, mode := .listen }),
   ("b", { is_touched := false, needs_intro := false, is_target := true,
           urgency := 0, mode := .listen })]

/-- Witness for C3: unit "a" has a fail rating (urgency 1.0), unit "b" is
untouched; both are targets with one card each; the chosen unit is "a". -/
theorem c3_witness :
    ∃ (u : String) (st : UrgencyState),
      chooseTask (fun _ => 1) c3States = .ok (st.mode, u) ∧
      (u, st) ∈ c3States ∧ 0 < st.urgency ∧ st.is_touched = true :=
  c3_urgent_before_untouched (fun _ => 0)
    [("a", [{ mode := .listen, time := 0, score := 1 }])] [.listen]
    ["a", "b"] 100 (fun _ => 1) c3States
    (by with_unfolding_all decide)
    (by with_unfolding_all decide)
    (by with_unfolding_all decide)

/-! ## `draw` lemmas -/

theorem maxByUrgency_mem :
    ∀ (rest : List (String × UrgencyState)) (t0 : String × UrgencyState),
      maxByUrgency t0 rest ∈ t0 :: rest := by
  intro rest
  induction rest with
  | nil => intro t0; simp [maxByUrgency]
  | cons p rest ih =>
      intro t0
      have hstep : maxByUrgency t0 (p :: rest) =
          maxByUrgency (if t0.2.urgency < p.2.urgency then p else t0) rest :=
        rfl
      rw [hstep]
      by_cases h : t0.2.urgency < p.2.urgency
      · rw [if_pos h]
        exact List.mem_cons_of_mem t0 (ih p)
      · rw [if_neg h]
        rcases List.mem_cons.mp (ih t0) with hm | hm
        · rw [hm]; exact List.mem_cons_self t0 (p :: rest)
        · exact List.mem_cons_of_mem t0 (List.mem_cons_of_mem p hm)

theorem chooseTask_ok_mem (cardSize : String → Nat)
    (states : List (String × UrgencyState))
    (hne : buildTargets cardSize states ≠ []) :
    ∃ u st, chooseTask cardSize states = .ok (st.mode, u) ∧
      (u, st) ∈ buildTargets cardSize states := by
  simp only [chooseTask]
  cases h1 : (buildTargets cardSize states).find?
      (fun p => 0 < p.2.urgency) with
  | some q =>
      obtain ⟨u, st⟩ := q
      exact ⟨u, st, rfl, List.mem_of_find?_eq_some h1⟩
  | none =>
    cases h2 : (buildTargets cardSize states).find?
        (fun p => p.2.needs_intro) with
    | some q =>
        obtain ⟨u, st⟩ := q
        exact ⟨u, st, rfl, List.mem_of_find?_eq_some h2⟩
    | none =>
      cases h3 : (buildTargets cardSize states).find?
          (fun p => !p.2.is_touched) with
      | some q =>
          obtain ⟨u, st⟩ := q
          exact ⟨u, st, rfl, List.mem_of_find?_eq_some h3⟩
      | none =>
          cases hbt : buildTargets cardSize states with
          | nil => exact absurd hbt hne
          | cons t0 rest =>
              refine ⟨(maxByUrgency t0 rest).1, (maxByUrgency t0 rest).2,
                rfl, ?_⟩
              simpa using maxByUrgency_mem rest t0

theorem chooseTask_error_of_empty (cardSize : String → Nat)
    (states : List (String × UrgencyState))
    (h : buildTargets cardSize states = []) :
    chooseTask cardSize states = .error "No units found" := by
  simp only [chooseTask, h, List.find?_nil]

theorem except_pure_bind {α β : Type} (a : α) (f : α → Except String β) :
    ((pure a : Except String α) >>= f) = f a := rfl

theorem scoreCard_foldlM_ok (difficultyMap : String → Option Difficulty)
    (difficulty : Difficulty) (states : List (String × UrgencyState)) :
    ∀ (units : List String),
      (∀ u ∈ units, dictGet states u ≠ none) →
      ∀ acc : ℚ, ∃ q, (units.foldlM (fun sc unit =>
        match dictGet states unit with
        | none => .error "KeyError"
        | some state => do
          let sc := if !state.is_target then sc - NONTARGET_PENALTY else sc
          let sc := if !state.is_touched then sc - UNTOUCHED_PENALTY else sc
          let sc := if state.needs_intro then sc + INTRODUCTION_BONUS else sc
          let sc := if 0 < state.urgency then sc + URGENCY_BONUS else sc
          let unit_difficulty := (difficultyMap unit).getD Difficulty.A1
          let sc :=
            if unit_difficulty = difficulty then sc + DIFFICULTY_MATCH_BONUS
            else if difficulty.toStr < unit_difficulty.toStr then
              sc + DIFFICULTY_PENALTY
            else sc
          pure sc) acc : Except String ℚ) = .ok q := by
  intro units
  induction units with
  | nil => intro _ acc; exact ⟨acc, rfl⟩
  | cons u us ih =>
      intro hc acc
      rw [List.foldlM_cons]
      dsimp only
      cases hdg : dictGet states u with
      | none => exact absurd hdg (hc u (List.mem_cons_self u us))
      | some st =>
          dsimp only
          rw [except_pure_bind]
          exact ih (fun v hv => hc v (List.mem_cons_of_mem u hv)) _

theorem scoreCard_ok (expFn : ℚ → ℚ)
    (card_id_uses : List (String × List CardUsage))
    (difficultyMap : String → Option Difficulty) (difficulty : Difficulty)
    (card : Card) (states : List (String × UrgencyState)) (t : ℚ)
    (hcover : ∀ u ∈ card.units, dictGet states u ≠ none) :
    ∃ q, scoreCard expFn card_id_uses difficultyMap difficulty card states t
      = .ok q := by
  unfold scoreCard
  exact scoreCard_foldlM_ok difficultyMap difficulty states card.units
    hcover _

theorem mapM_ok_of_all {α β : Type} (f : α → Except String β) :
    ∀ (l : List α), (∀ a ∈ l, ∃ b, f a = .ok b) →
      ∃ l', l.mapM f = .ok l' ∧ l'.length = l.length := by
  intro l
  induction l with
  | nil => intro _; exact ⟨[], rfl, rfl⟩
  | cons a rest ih =>
      intro h
      obtain ⟨b, hb⟩ := h a (List.mem_cons_self a rest)
      obtain ⟨l', hl', hlen⟩ := ih (fun x hx => h x (List.mem_cons_of_mem a hx))
      refine ⟨b :: l', ?_, by simp [hlen]⟩
      rw [List.mapM_cons, hb, except_bind_ok, hl', except_bind_ok]
      rfl

/-! ## C4: when `draw` raises -/

/-- C4 amended: for a well-formed deck (urgency computation succeeds,
`shuffle` permutes, every unit tagged by a stored card is covered by the
urgency states), `draw` returns normally if and only if some **target**
unit has a card.  In particular it raises whenever the deck has no cards
at all — but also when cards exist only beyond the target frontier. -/
theorem c4_amended_draw_error_iff (expFn : ℚ → ℚ)
    (shuffle : List Card → List Card) (deck : Deck) (t : ℚ)
    (states : List (String × UrgencyState))
    (hshuffle : ∀ l : List Card, List.Perm (shuffle l) l)
    (hok : computeUrgencies expFn deck.ratings deck.modes deck.vocab t =
      .ok states)
    (hcover : ∀ u ∈ deck.vocab, ∀ c ∈ deck.cardStore u, ∀ u2 ∈ c.units,
      dictGet states u2 ≠ none) :
    (∃ p ∈ states, p.2.is_target = true ∧ deck.cardStore p.1 ≠ []) ↔
      (∃ r, draw expFn shuffle deck t = .ok r) := by
  constructor
  · rintro ⟨p, hpmem, hptgt, hpstore⟩
    have hmono : TargetsMono states := fun j hj ht k hk =>
      go_targets_mono expFn deck.ratings deck.modes t deck.vocab 0 0 false states
        hok j hj ht k hk
    have hpcard : (fun u => (deck.cardStore u).length) p.1 ≠ 0 := by
      simpa [List.length_eq_zero] using hpstore
    have hpin := buildTargets_mem_of (fun u => (deck.cardStore u).length)
      states hmono p hpmem hptgt hpcard
    have hbne : buildTargets (fun u => (deck.cardStore u).length) states
        ≠ [] := by
      intro h0
      rw [h0] at hpin
      cases hpin
    obtain ⟨u, st, hct, hmem⟩ := chooseTask_ok_mem
      (fun u => (deck.cardStore u).length) states hbne
    have hu_card := (buildTargets_mem_prop
      (fun u => (deck.cardStore u).length) states (u, st) hmem).2
    have hstore_ne : ¬ (deck.cardStore u = []) := by
      intro h0
      exact hu_card (by simp [h0])
    have hu_states : (u, st) ∈ states := buildTargets_subset
      (fun u => (deck.cardStore u).length) states (u, st) hmem
    have hu_vocab : u ∈ deck.vocab := by
      rw [← go_keys expFn deck.ratings deck.modes t deck.vocab 0 0 false
        states hok]
      exact List.mem_map_of_mem Prod.fst hu_states
    obtain ⟨scored, hmap, hlen⟩ := mapM_ok_of_all
      (fun card => do
        pure ((← scoreCard expFn deck.card_id_uses deck.difficultyMap
          deck.difficulty card states t), card))
      (shuffle (deck.cardStore u))
      (by
        intro c hc
        have hc' : c ∈ deck.cardStore u :=
          (List.Perm.mem_iff (hshuffle (deck.cardStore u))).mp hc
        obtain ⟨q, hq⟩ := scoreCard_ok expFn deck.card_id_uses
          deck.difficultyMap deck.difficulty c states t
          (fun u2 hu2 => hcover u hu_vocab c hc' u2 hu2)
        exact ⟨(q, c), by dsimp only; rw [hq]; rfl⟩)
    cases scored with
    | nil =>
        exfalso
        have : (shuffle (deck.cardStore u)).length = 0 := by
          rw [← hlen]; rfl
        rw [List.Perm.length_eq (hshuffle (deck.cardStore u))] at this
        exact hu_card this
    | cons p0 rest' =>
        refine ⟨(st.mode, (maxByScore p0 rest').2, deck), ?_⟩
        unfold draw
        rw [hok, except_bind_ok]
        dsimp only
        rw [hct, except_bind_ok]
        dsimp only
        rw [if_neg hstore_ne]
        dsimp only
        rw [hmap, except_bind_ok]
        rfl
  · rintro ⟨r, hr⟩
    by_contra hnp
    have hbt : buildTargets (fun u => (deck.cardStore u).length) states
        = [] := by
      cases hbtc : buildTargets (fun u => (deck.cardStore u).length)
          states with
      | nil => rfl
      | cons q qs =>
          exfalso
          have hqmem : q ∈ buildTargets
              (fun u => (deck.cardStore u).length) states := by
            rw [hbtc]; exact List.mem_cons_self q qs
          obtain ⟨ht, hc⟩ := buildTargets_mem_prop
            (fun u => (deck.cardStore u).length) states q hqmem
          have hsub := buildTargets_subset
            (fun u => (deck.cardStore u).length) states q hqmem
          exact hnp ⟨q, hsub, ht, by simpa [List.length_eq_zero] using hc⟩
    have hch := chooseTask_error_of_empty
      (fun u => (deck.cardStore u).length) states hbt
    unfold draw at hr
    rw [hok, except_bind_ok] at hr
    dsimp only at hr
    rw [hch, except_bind_error] at hr
    cases hr

/-- Deck of the C4 counterexample: twelve vocabulary units, none ever
rated, and a single card belonging to the last unit, which lies beyond the
target frontier (`(0 + 10) / (11 + 10) < 0.5`). -/
def c4Deck : Deck :=
  { target_language := "japanese", native_language := "english",
    ratings := [], card_id_uses := [], difficulty := .A1,
    modes := [.listen],
    vocab := ["u0", "u1", "u2", "u3", "u4", "u5", "u6", "u7", "u8", "u9",
              "u10", "u11"],
    difficultyMap := fun _ => some .A1,
    cardStore := fun u =>
      if u = "u11" then [{ id := "c", units := ["u11"] }] else [] }

/-- C4 counterexample: the deck holds a generated card (for unit "u11"),
yet `draw()` raises the `_choose_task` `ValueError` because the only unit
with a card is not a target. -/
theorem c4_counterexample :
    c4Deck.cardStore "u11" ≠ [] ∧ "u11" ∈ c4Deck.vocab ∧
    draw (fun _ => 0) id c4Deck 100 = .error "No units found" := by
  refine ⟨by with_unfolding_all decide, by decide, ?_⟩
  with_unfolding_all rfl

/-- Deck of the C4 witness: unit "a" failed once and owns the only card;
unit "b" is untouched. -/
def c4wDeck : Deck :=
  { target_language := "japanese", native_language := "english",
    ratings := [("a", [{ mode := .listen, time := 0, score := 1 }])],
    card_id_uses := [], difficulty := .A1, modes := [.listen],
    vocab := ["a", "b"],
    difficultyMap := fun _ => some .A1,
    cardStore := fun u =>
      if u = "a" then [{ id := "ca", units := ["a"] }] else [] }

/-- Urgency states computed for the C4 witness deck at time 100. -/
def c4wStates : List (String × UrgencyState) :=
  [("a", { is_touched := true, needs_intro := true, is_target := true,
           urgency := 1, mode := .listen }),
   ("b", { is_touched := false, needs_intro := false, is_target := true,
           urgency := 0, mode := .listen })]

/-- Witness for C4 amended at a concrete deck where a target unit has a
card: `draw` succeeds if and only if such a unit exists. -/
theorem c4_witness :
    (∃ p ∈ c4wStates, p.2.is_target = true ∧ c4wDeck.cardStore p.1 ≠ []) ↔
      (∃ r, draw (fun _ => 0) id c4wDeck 100 = .ok r) :=
  c4_amended_draw_error_iff (fun _ => 0) id c4wDeck 100 c4wStates
    (fun l => List.Perm.refl l)
    (by with_unfolding_all decide)
    (by with_unfolding_all decide)

end Bespoke
